import Mathlib

/-!
Verification development for the go-skyconf repository (package skyconf).

The Go source is shallowly embedded: pure string manipulation becomes Lean
functions on String, the reflective field machinery becomes explicit lists of
field descriptors carrying string-typed values, fallible code returns Except,
and the stateful refresh loop becomes a pure function that also returns the
trace of lock / set / notify events it performed.
-/

deriving instance DecidableEq for Except

namespace Skyconf

/-! ## Go string helpers

Models of the Go standard-library string functions the package uses, for the
one-character separators that occur in the source. They are written over the
character list of the string so that every theorem can be checked by kernel
evaluation. -/

def goSplitAux (sep : Char) (acc : List Char) : List Char → List (List Char)
  | [] => [acc.reverse]
  | c :: cs => if c = sep then acc.reverse :: goSplitAux sep [] cs
               else goSplitAux sep (c :: acc) cs

/-- Model of Go `strings.Split(s, sep)` for a one-character separator: split on
every occurrence; the empty input yields the one-element list holding the
empty string, exactly as in Go. -/
def goSplit (sep : Char) (s : String) : List String :=
  (goSplitAux sep [] s.data).map String.mk

def goSplitFirst2Aux (sep : Char) (acc : List Char) : List Char → List (List Char)
  | [] => [acc.reverse]
  | c :: cs => if c = sep then [acc.reverse, cs]
               else goSplitFirst2Aux sep (c :: acc) cs

/-- Model of Go `strings.SplitN(s, sep, 2)` for a one-character separator:
split at the first occurrence only, keeping the rest intact. -/
def goSplitFirst2 (sep : Char) (s : String) : List String :=
  (goSplitFirst2Aux sep [] s.data).map String.mk

/-- Model of Go `strings.TrimSpace`: drop leading and trailing whitespace. -/
def goTrimSpace (s : String) : String :=
  String.mk (((s.data.dropWhile Char.isWhitespace).reverse.dropWhile
    Char.isWhitespace).reverse)

/-! ## CRC32 (IEEE), as used by hash/crc32 ChecksumIEEE

`updater.add` and `refreshFieldsFromSource` fingerprint values with
`crc32.ChecksumIEEE([]byte(value))`: the reflected CRC-32 with polynomial
0xEDB88320 over the UTF-8 bytes of the string. -/

def crc32Poly : Nat := 0xEDB88320

/-- One bit step of the reflected CRC-32. -/
def crc32Step (crc : Nat) : Nat :=
  if crc % 2 = 1 then (crc / 2) ^^^ crc32Poly else crc / 2

/-- Iterate the bit step. -/
def crc32Bits : Nat → Nat → Nat
  | 0, crc => crc
  | n + 1, crc => crc32Bits n (crc32Step crc)

/-- Fold one byte into the CRC state. -/
def crc32Byte (crc b : Nat) : Nat := crc32Bits 8 (crc ^^^ b)

/-- Fold a byte list into the CRC state. -/
def crc32Aux : List Nat → Nat → Nat
  | [], crc => crc
  | b :: bs, crc => crc32Aux bs (crc32Byte crc b)

/-- UTF-8 encoding of one Unicode code point (as Go `[]byte(string)` does). -/
def utf8EncodeCharNat (c : Nat) : List Nat :=
  if c < 0x80 then [c]
  else if c < 0x800 then [0xC0 ||| (c >>> 6), 0x80 ||| (c &&& 0x3F)]
  else if c < 0x10000 then
    [0xE0 ||| (c >>> 12), 0x80 ||| ((c >>> 6) &&& 0x3F), 0x80 ||| (c &&& 0x3F)]
  else
    [0xF0 ||| (c >>> 18), 0x80 ||| ((c >>> 12) &&& 0x3F),
      0x80 ||| ((c >>> 6) &&& 0x3F), 0x80 ||| (c &&& 0x3F)]

/-- UTF-8 bytes of a string, each as a Nat below 256. -/
def stringBytes (s : String) : List Nat :=
  (s.data.map (fun c => utf8EncodeCharNat c.toNat)).flatten

/-- Model of Go `crc32.ChecksumIEEE([]byte(s))`. -/
def crc32 (s : String) : Nat := crc32Aux (stringBytes s) 0xFFFFFFFF ^^^ 0xFFFFFFFF

/-! ## Field options and tag parsing (fields.go, revision in src/unnamed/part_000)

The repository snapshot holds the fields.go revision inside
src/unnamed/part_000 (fieldOptions, inherit, parseTag, processFieldValue).
Later revisions referenced by parse.go additionally carry `refresh` and `id`
options on fieldOptions (visible in the debug formatter output of the tests),
so the structure below carries all six fields; `parseTag` below is the
part_000 revision and only ever sets the first four. -/

structure fieldOptions where
  defaultValue : String := ""
  optional : Bool := false
  flatten : Bool := false
  source : String := ""
  /-- refresh interval in nanoseconds (Go time.Duration); 0 means not refreshable -/
  refresh : Nat := 0
  /-- identifier carried by update notifications -/
  id : String := ""
deriving Repr, DecidableEq

/-- Model of `fieldOptions.inherit`: copy only the `source` option from the
parent options. -/
def fieldOptions.inherit (o parent : fieldOptions) : fieldOptions :=
  { o with source := parent.source }

inductive TagErr where
  /-- Go: tag %q missing a value -/
  | missingValue (prop : String)
deriving Repr, DecidableEq

/-- One `name:value` or bare-flag segment of a tag, mirroring the loop body of
`parseTag` over `parts[1:]`. -/
def parseTagPart (f : fieldOptions) (part : String) : Except TagErr fieldOptions :=
  match goSplitFirst2 ':' part with
  | [prop] =>
    match prop with
    | "optional" => .ok { f with optional := true }
    | "flatten" => .ok { f with flatten := true }
    | _ => .ok f
  | [prop, v] =>
    let val := goTrimSpace v
    if val = "" then .error (.missingValue prop)
    else
      match prop with
      | "default" => .ok { f with defaultValue := val }
      | "source" => .ok { f with source := val }
      | _ => .ok f
  | _ => .ok f

/-- Model of `parseTag(tag string, parentOptions fieldOptions)` from
src/unnamed/part_000. Note the early return on the empty tag happens BEFORE
`f.inherit(parentOptions)` runs, so the empty tag yields the zero-valued
options without inheriting the parent's source. -/
def parseTag (tag : String) (parentOptions : fieldOptions) :
    Except TagErr (String × fieldOptions) :=
  if tag = "" then .ok ("", {})
  else
    let f0 := fieldOptions.inherit {} parentOptions
    match goSplit ',' tag with
    | [] => .ok ("", f0)
    | key :: rest =>
      (rest.foldlM parseTagPart f0).map (fun f => (key, f))

/-! ## Value coercion (processFieldValue, src/unnamed/part_000)

The reflective `processFieldValue` is embedded over an explicit universe of
the plain-data field shapes it dispatches on: strings, slices and maps. The
Setter / TextUnmarshaler / BinaryUnmarshaler probes, the pointer dereference
and the numeric scalar kinds are orthogonal to the claims settled here and
are outside this universe. A Go map is represented as the list of its
insertions in order; `reflect.Value.SetMapIndex` on a fresh map with distinct
keys appends exactly these entries (for duplicate keys Go would overwrite;
the insertion log keeps both, the later one being the binding that counts). -/

inductive Kind where
  | str
  | slice (elem : Kind)
  | kvmap (key val : Kind)
deriving Repr, DecidableEq

inductive GoVal where
  | str (s : String)
  | slice (xs : List GoVal)
  | kvmap (entries : List (GoVal × GoVal))
deriving Repr

/-- Model of `reflect.Value.IsZero` on the universe above: the zero string is
empty, the zero slice and map are nil (represented empty). -/
def GoVal.isZero : GoVal → Bool
  | .str s => s = ""
  | .slice xs => xs.isEmpty
  | .kvmap es => es.isEmpty

/-- The zero value of each kind (`reflect.New(t).Elem()`). -/
def zeroVal : Kind → GoVal
  | .str => .str ""
  | .slice _ => .slice []
  | .kvmap _ _ => .kvmap []

inductive CoerceErr where
  /-- Go: invalid map item: %q -/
  | invalidMapItem (pair : String)
deriving Repr, DecidableEq

/-- Run an element coercion over every split part, mirroring the slice loop of
`processFieldValue`: the first failing element aborts. -/
def coerceElems (f : String → Except CoerceErr GoVal) :
    List String → Except CoerceErr (List GoVal)
  | [] => .ok []
  | v :: vs => do
    let x ← f v
    let xs ← coerceElems f vs
    .ok (x :: xs)

/-- Run the map-entry loop of `processFieldValue`: each entry is split on
every `:` (Go `strings.Split(pair, ":")`), must yield exactly two parts, and
the two parts are coerced into the key and value types in that order. -/
def coerceEntries (fk fv : String → Except CoerceErr GoVal) :
    List String → Except CoerceErr (List (GoVal × GoVal))
  | [] => .ok []
  | pair :: rest =>
    match goSplit ':' pair with
    | [kRaw, vRaw] => do
      let k ← fk kRaw
      let v ← fv vRaw
      let es ← coerceEntries fk fv rest
      .ok ((k, v) :: es)
    | _ => .error (.invalidMapItem pair)

/-- Model of `processFieldValue(isDefaultValue bool, value string, field
reflect.Value)` from src/unnamed/part_000 on the plain-data universe. The
field's current value is passed explicitly; the function returns the field's
new value. When `isDefaultValue` is set and the current value is non-zero the
default is skipped and the field keeps its value. -/
def processFieldValue (isDefaultValue : Bool) (value : String) (k : Kind)
    (current : GoVal) : Except CoerceErr GoVal :=
  if isDefaultValue && !current.isZero then .ok current
  else
    match k with
    | .str => .ok (.str value)
    | .slice ek =>
      (coerceElems (fun v => processFieldValue false v ek (zeroVal ek))
        (goSplit ';' value)).map GoVal.slice
    | .kvmap kk vk =>
      if (goTrimSpace value).length != 0 then
        (coerceEntries (fun v => processFieldValue false v kk (zeroVal kk))
          (fun v => processFieldValue false v vk (zeroVal vk))
          (goSplit ';' value)).map GoVal.kvmap
      else .ok (.kvmap [])

/-! ## Parse (src/parse.go)

`Parse` is embedded for records whose bindable leaves are string-typed (the
shape every scenario of the specification uses): the record state is the list
of the leaves' current string values, parallel to the extracted field list.
Setting a string field via `processFieldValue(false, value, field)` always
succeeds and stores the value verbatim, and its zero value is the empty
string, so `field.structField.IsZero()` is `v = ""`.

A `Source` collaborator is a pure id, parameter-name formatter, refresh
capability, and backing store; `Source(ctx, keys)` returns the store's value
for each requested key that is present. Fetch errors are not modelled (no
claim concerns them). Go builds a `fieldsMap` keyed by formatted parameter
name and iterates it in unspecified order; the model processes the eligible
fields in declaration order, which agrees with the Go code whenever the
eligible fields of one source have pairwise distinct keys (each loop body
touches only its own field). -/

structure SourceM where
  id : String
  /-- the backing parameter store consulted by `Source(ctx, keys)` -/
  store : List (String × String)
  /-- `ParameterName`: format a key from the field's name parts -/
  paramName : List String → String
  /-- `Refreshable()` -/
  refreshable : Bool

/-- One requested key's lookup in the map returned by `Source(ctx, keys)`. -/
def SourceM.fetch (s : SourceM) (key : String) : Option String :=
  (s.store.find? (fun e => e.1 = key)).map (fun e => e.2)

structure fieldInfo where
  nameParts : List String
  options : fieldOptions

inductive ParseErr where
  /-- ErrNoSource -/
  | noSource
  /-- ErrSourceNotFound, with the unmatched pinned source id -/
  | sourceNotFound (id : String)
  /-- ErrParameterNotFound, with the source attribution and the key -/
  | parameterNotFound (src key : String)
  /-- ErrSourceNotRefreshable, with the offending source id -/
  | sourceNotRefreshable (id : String)
deriving Repr, DecidableEq

/-- An entry of the updater's raw registration list (`refreshedFieldSource`):
the field (by its index in the record), the resolved key, the source id and
the CRC32 fingerprint of the value that was bound. -/
structure RegEntry where
  idx : Nat
  key : String
  sourceId : String
  valueHash : Nat
deriving Repr, DecidableEq

/-- Model of `updater.add`: refuse a non-refreshable source, then either
replace the entry already registered for the same field or append a new
one. -/
def updAdd (raw : List RegEntry) (idx : Nat) (key : String) (src : SourceM)
    (value : String) : Except ParseErr (List RegEntry) :=
  if !src.refreshable then .error (.sourceNotRefreshable src.id)
  else
    let crc := crc32 value
    if raw.any (fun r => r.idx = idx) then
      .ok (raw.map (fun r =>
        if r.idx = idx then { r with key := key, sourceId := src.id, valueHash := crc }
        else r))
    else
      .ok (raw ++ [{ idx := idx, key := key, sourceId := src.id, valueHash := crc }])

/-- Model of the per-field body of the per-source loop of `Parse`
(parse.go lines 122-190), for one field holding value `v`:
eligibility filter, lookup of the formatted key, the miss ladder
(fall-through / non-zero / optional / ParameterNotFound), the value
assignment, and the updater registration for refreshable fields. -/
def stepField (numSources sourceIdx : Nat) (src : SourceM) (idx : Nat)
    (f : fieldInfo) (v : String) (raw : List RegEntry) :
    Except ParseErr (String × List RegEntry) :=
  if f.options.source = "" || f.options.source = src.id then
    let key := src.paramName f.nameParts
    match src.fetch key with
    | none =>
      if f.options.source = "" && sourceIdx < numSources - 1 then .ok (v, raw)
      else if v ≠ "" then .ok (v, raw)
      else if f.options.optional then .ok (v, raw)
      else
        let srcName := if f.options.source = "" && numSources > 1 then "(any)" else src.id
        .error (.parameterNotFound srcName key)
    | some value =>
      if f.options.refresh ≠ 0 then
        (updAdd raw idx key src value).map (fun raw2 => (value, raw2))
      else .ok (value, raw)
  else .ok (v, raw)

/-- Process every field of the record against one source, in declaration
order, threading the record state and the registration list. -/
def processSourceAux (numSources sourceIdx : Nat) (src : SourceM) (idx : Nat) :
    List fieldInfo → List String → List RegEntry →
    Except ParseErr (List String × List RegEntry)
  | [], _, raw => .ok ([], raw)
  | _, [], raw => .ok ([], raw)
  | f :: fs, v :: vs, raw => do
    let (v2, raw2) ← stepField numSources sourceIdx src idx f v raw
    let (vs2, raw3) ← processSourceAux numSources sourceIdx src (idx + 1) fs vs raw2
    .ok (v2 :: vs2, raw3)

/-- The outer per-source loop of `Parse`, with `sourceIdx` tracking the
position in the original source list. -/
def processSources (numSources : Nat) : Nat → List SourceM → List fieldInfo →
    List String → List RegEntry → Except ParseErr (List String × List RegEntry)
  | _, [], _, vals, raw => .ok (vals, raw)
  | sourceIdx, s :: ss, fields, vals, raw => do
    let (vals2, raw2) ← processSourceAux numSources sourceIdx s 0 fields vals raw
    processSources numSources (sourceIdx + 1) ss fields vals2 raw2

/-- The pinned-source validation of `Parse` (parse.go lines 84-101). -/
def checkSourcesFound : List fieldInfo → List SourceM → Except ParseErr Unit
  | [], _ => .ok ()
  | f :: fs, ss =>
    if f.options.source = "" then checkSourcesFound fs ss
    else if ss.any (fun s => s.id = f.options.source) then checkSourcesFound fs ss
    else .error (.sourceNotFound f.options.source)

/-- The default-value pass of `Parse` (parse.go lines 103-116) on one string
field: a field with no declared default is untouched, and
`processFieldValue(true, default, field)` keeps any non-zero current value. -/
def applyDefault (f : fieldInfo) (v : String) : String :=
  if f.options.defaultValue = "" then v
  else if v ≠ "" then v
  else f.options.defaultValue

/-- Model of `Parse(ctx, cfg, withUntagged, sources...)` after field
extraction: `fields` is the extracted field list and `init` the record's
initial leaf values. Returns the final leaf values and the updater's
registration list (empty registrations correspond to the no-op refresher). -/
def parse (fields : List fieldInfo) (init : List String) (sources : List SourceM) :
    Except ParseErr (List String × List RegEntry) :=
  if sources.isEmpty then .error .noSource
  else do
    checkSourcesFound fields sources
    let st := List.zipWith applyDefault fields init
    processSources sources.length 0 sources fields st []

/-- A source whose formatter prefixes a path, for concrete scenarios. -/
def mkSource (id path : String) (store : List (String × String))
    (refreshable : Bool := true) : SourceM :=
  { id := id, store := store, refreshable := refreshable,
    paramName := fun parts => path ++ String.intercalate "/" parts }

/-! ## The refresh tick (updater.refreshFieldsFromSource, src/unnamed/part_002)

One refresh group of string-typed fields is the list of its registered
fields, each carrying its notification id (`options.id`), its resolved key,
the record's current value for the field, and the stored CRC32 fingerprint.
A tick of the group against a source re-fetches every key and walks the
fields in order; the walk is embedded as a pure per-field transformer that
also returns the trace of lock, mutation, notification and error-callback
events the Go loop body performs for that field. Sending on the updates
channel is modelled as the `notify` event: the Go select gives up after a
short timeout when no receiver is ready, which is a real-time concern outside
this embedding (the spec calls delivery best-effort). Context cancellation is
likewise not modelled: no claim concerns an interrupted walk. -/

inductive RefreshEvent where
  /-- `u.locker.Lock()` -/
  | lockAcquired
  /-- `processFieldValue(false, val, field.structField)` on a string field -/
  | fieldSet (value : String)
  /-- `u.locker.Unlock()` -/
  | lockReleased
  /-- the update pushed on the updates channel, carrying `options.id` -/
  | notify (id : String)
  /-- the error callback invoked with ErrMissingKeyOnRefresh for the key -/
  | errMissingKey (key : String)
deriving Repr, DecidableEq

/-- One registered field of a refresh group. -/
structure RField where
  /-- the field's `options.id`, carried by notifications -/
  id : String
  /-- the resolved parameter key -/
  key : String
  /-- the record's current value for the field -/
  value : String
  /-- the stored CRC32 fingerprint of the last applied value -/
  valueHash : Nat
deriving Repr, DecidableEq

/-- The loop body of `refreshFieldsFromSource` for one field: a fetched value
whose fingerprint equals the stored one is skipped with no event at all; a
differing value is written under the lock, the fingerprint is updated, and
one notification carrying the field's id is emitted (a string field's
assignment never fails); a missing key invokes the error callback and the
walk continues. -/
def refreshFieldStep (src : SourceM) (f : RField) : RField × List RefreshEvent :=
  match src.fetch f.key with
  | some val =>
    let crc := crc32 val
    if crc = f.valueHash then (f, [])
    else ({ f with value := val, valueHash := crc },
      [.lockAcquired, .fieldSet val, .lockReleased, .notify f.id])
  | none => (f, [.errMissingKey f.key])

/-- Model of `refreshFieldsFromSource`: walk the group's fields in order,
returning each field's new state and the events of its loop-body pass. -/
def refreshFieldsFromSource (src : SourceM) (rf : List RField) :
    List (RField × List RefreshEvent) :=
  rf.map (refreshFieldStep src)

/-! ## Refresh tickers (updater.Refresh, src/unnamed/part_002; jitterticker.go)

`updater.Refresh` creates one ticker per distinct registered interval with
`u.clock.NewTicker(d)` after initialising `u.clock = cfclock.NewClock()`,
the plain wall clock whose ticker fires with period exactly `d`.
`jitterTickerClock.NewTicker` (jitterticker.go) instead returns a ticker of
period `d + Now().UnixNano() % int64(d/10)`; its constructor
`newJitterTickerClock` is never called anywhere in the repository. Durations
are in nanoseconds; `UnixNano` is non-negative for any time after 1970, so
Go's `%` agrees with Nat mod (for `d` below 10ns, `int64(d/10)` is zero and
the Go expression would panic with a division by zero). -/

/-- The period of the ticker `updater.Refresh` starts for interval `d`. -/
def updaterRefreshTickerPeriod (d : Nat) : Nat := d

/-- The period of the ticker `jitterTickerClock.NewTicker` would return for
interval `d` at wall-clock time `now` (in nanoseconds since the epoch). -/
def jitterTickerPeriod (now d : Nat) : Nat := d + now % (d / 10)

/-! ## Sanity checks on the embedded definitions -/

example : goSplit ';' "" = [""] := by decide
example : goSplit ';' "a;b;" = ["a", "b", ""] := by decide
example : goSplit ':' "a:b:c" = ["a", "b", "c"] := by decide
example : goSplitFirst2 ':' "a:b:c" = ["a", "b:c"] := by decide
example : goSplitFirst2 ':' "optional" = ["optional"] := by decide
example : goTrimSpace " v " = "v" := by decide

example : parseTag "" { source := "g" } = .ok ("", {}) := rfl
example : parseTag "key" { source := "g" } = .ok ("key", { source := "g" }) := by decide
example : parseTag ",optional,flatten,default:d,source:s" {} =
    .ok ("", { optional := true, flatten := true, defaultValue := "d", source := "s" }) := by decide
example : parseTag ",default:" {} = .error (.missingValue "default") := by decide

example : processFieldValue false "a;b;c" (.slice .str) (.slice []) =
    .ok (.slice [.str "a", .str "b", .str "c"]) := rfl
example : processFieldValue false "key1:val1;key2:val2" (.kvmap .str .str) (.kvmap []) =
    .ok (.kvmap [(.str "key1", .str "val1"), (.str "key2", .str "val2")]) := rfl
example : processFieldValue false "key1:val1;key2-val2" (.kvmap .str .str) (.kvmap []) =
    .error (.invalidMapItem "key2-val2") := rfl
example : processFieldValue true "test" .str (.str "keep") = .ok (.str "keep") := rfl
example : processFieldValue true "test" .str (.str "") = .ok (.str "test") := rfl

example : parse [{ nameParts := ["x"], options := {} }] [""]
    [mkSource "A" "/a/" [("/a/x", "1")], mkSource "B" "/b/" [("/b/x", "2")]] =
    .ok (["2"], []) := rfl
example : parse [{ nameParts := ["x"], options := { source := "A" } }] [""]
    [mkSource "A" "/a/" [("/a/x", "1")], mkSource "B" "/b/" [("/b/x", "2")]] =
    .ok (["1"], []) := rfl
example : parse [{ nameParts := ["x"], options := {} }] [""] [] =
    .error .noSource := rfl

/-! ## Helper lemmas about the Parse folds over single-field records -/

theorem stepField_notEligible (n i : Nat) (src : SourceM) (idx : Nat)
    (f : fieldInfo) (v : String) (raw : List RegEntry)
    (h1 : f.options.source ≠ "") (h2 : f.options.source ≠ src.id) :
    stepField n i src idx f v raw = .ok (v, raw) := by
  simp [stepField, h1, h2]

theorem processSourceAux_single (n i : Nat) (src : SourceM) (f : fieldInfo)
    (v : String) (raw : List RegEntry) :
    processSourceAux n i src 0 [f] [v] raw =
      (stepField n i src 0 f v raw).bind (fun p => .ok ([p.1], p.2)) := by
  cases h : stepField n i src 0 f v raw with
  | ok p => rw [processSourceAux, h]; rfl
  | error e => rw [processSourceAux, h]; rfl

theorem processSources_cons (n i : Nat) (s : SourceM) (ss : List SourceM)
    (fields : List fieldInfo) (vals : List String) (raw : List RegEntry) :
    processSources n i (s :: ss) fields vals raw =
      (processSourceAux n i s 0 fields vals raw).bind
        (fun p => processSources n (i + 1) ss fields p.1 p.2) := by
  cases h : processSourceAux n i s 0 fields vals raw with
  | ok p => rw [processSources, h]; rfl
  | error e => rw [processSources, h]; rfl

/-- A pinned field is untouched by every source whose id differs from the
pinned id, whatever those sources hold. -/
theorem processSources_skipOtherIds (n : Nat) (f : fieldInfo)
    (hf : f.options.source ≠ "") :
    ∀ (ss : List SourceM) (i : Nat) (v : String) (raw : List RegEntry),
      (∀ s ∈ ss, s.id ≠ f.options.source) →
      processSources n i ss [f] [v] raw = .ok ([v], raw) := by
  intro ss
  induction ss with
  | nil => intro i v raw _; rfl
  | cons s ss ih =>
    intro i v raw hids
    rw [processSources_cons, processSourceAux_single,
      stepField_notEligible n i s 0 f v raw hf
        (fun h => hids s (List.mem_cons_self s ss) h.symm)]
    exact ih (i + 1) v raw (fun t ht => hids t (List.mem_cons_of_mem s ht))

/-- An unpinned field whose key every remaining source misses keeps its
value, provided the value is already non-zero or the field is optional. -/
theorem processSources_missAll (n : Nat) (f : fieldInfo)
    (hf : f.options.source = "")
    (v : String) (hvo : v ≠ "" ∨ f.options.optional = true) :
    ∀ (ss : List SourceM) (i : Nat) (raw : List RegEntry),
      (∀ s ∈ ss, s.fetch (s.paramName f.nameParts) = none) →
      processSources n i ss [f] [v] raw = .ok ([v], raw) := by
  intro ss
  induction ss with
  | nil => intro i raw _; rfl
  | cons s ss ih =>
    intro i raw hmiss
    have hstep : stepField n i s 0 f v raw = .ok (v, raw) := by
      have hm := hmiss s (List.mem_cons_self s ss)
      simp only [stepField, hf, hm]
      cases hvo with
      | inl hv => simp [hv]
      | inr hopt => simp [hopt]
    rw [processSources_cons, processSourceAux_single, hstep]
    exact ih (i + 1) raw (fun t ht => hmiss t (List.mem_cons_of_mem s ht))

/-- An unpinned field whose key every source of a proper prefix of the source
list misses is untouched by that prefix (the miss falls through to the next
source because the prefix never reaches the last index). -/
theorem processSources_prefixMiss (n : Nat) (f : fieldInfo)
    (hf : f.options.source = "") :
    ∀ (P : List SourceM) (i : Nat) (v : String) (raw : List RegEntry),
      (∀ p ∈ P, p.fetch (p.paramName f.nameParts) = none) →
      i + P.length < n →
      processSources n i P [f] [v] raw = .ok ([v], raw) := by
  intro P
  induction P with
  | nil => intro i v raw _ _; rfl
  | cons p P ih =>
    intro i v raw hmiss hlen
    rw [List.length_cons] at hlen
    have hidx : i < n - 1 := by omega
    have hstep : stepField n i p 0 f v raw = .ok (v, raw) := by
      have hm := hmiss p (List.mem_cons_self p P)
      simp only [stepField, hf, hm]
      simp [hidx]
    rw [processSources_cons, processSourceAux_single, hstep]
    exact ih (i + 1) v raw (fun t ht => hmiss t (List.mem_cons_of_mem p ht))
      (by omega)

/-- An unpinned, non-refreshing field never makes a proper prefix of the
source list fail: each prefix source either overwrites the value or misses
and falls through. -/
theorem processSources_unpinned_noErr (n : Nat) (f : fieldInfo)
    (hf : f.options.source = "") (hr : f.options.refresh = 0) :
    ∀ (P : List SourceM) (i : Nat) (v : String) (raw : List RegEntry),
      i + P.length < n →
      ∃ w, processSources n i P [f] [v] raw = .ok ([w], raw) := by
  intro P
  induction P with
  | nil => intro i v raw _; exact ⟨v, rfl⟩
  | cons p P ih =>
    intro i v raw hlen
    rw [List.length_cons] at hlen
    have hidx : i < n - 1 := by omega
    cases hfetch : p.fetch (p.paramName f.nameParts) with
    | some u =>
      have hstep : stepField n i p 0 f v raw = .ok (u, raw) := by
        simp [stepField, hf, hfetch, hr]
      obtain ⟨w, hw⟩ := ih (i + 1) u raw (by omega)
      exact ⟨w, by rw [processSources_cons, processSourceAux_single, hstep]; exact hw⟩
    | none =>
      have hstep : stepField n i p 0 f v raw = .ok (v, raw) := by
        simp only [stepField, hf, hfetch]
        simp [hidx]
      obtain ⟨w, hw⟩ := ih (i + 1) v raw (by omega)
      exact ⟨w, by rw [processSources_cons, processSourceAux_single, hstep]; exact hw⟩

theorem checkSourcesFound_unpinned (f : fieldInfo) (hf : f.options.source = "")
    (ss : List SourceM) : checkSourcesFound [f] ss = .ok () := by
  simp [checkSourcesFound, hf]

theorem checkSourcesFound_present (f : fieldInfo) (ss : List SourceM)
    (hss : ∃ s ∈ ss, s.id = f.options.source) :
    checkSourcesFound [f] ss = .ok () := by
  by_cases hf : f.options.source = ""
  · simp [checkSourcesFound, hf]
  · have : ss.any (fun s => s.id = f.options.source) = true := by
      obtain ⟨s, hs, hid⟩ := hss
      exact List.any_eq_true.mpr ⟨s, hs, by simp [hid]⟩
    simp [checkSourcesFound, hf, this]

theorem applyDefault_nonzero (f : fieldInfo) (v : String) (hv : v ≠ "") :
    applyDefault f v = v := by
  by_cases hd : f.options.defaultValue = "" <;> simp [applyDefault, hd, hv]

theorem processSources_append (n : Nat) (fields : List fieldInfo) :
    ∀ (P : List SourceM) (i : Nat) (rest : List SourceM) (vals : List String)
      (raw : List RegEntry),
      processSources n i (P ++ rest) fields vals raw =
        (processSources n i P fields vals raw).bind
          (fun p => processSources n (i + P.length) rest fields p.1 p.2) := by
  intro P
  induction P with
  | nil => intro i rest vals raw; rfl
  | cons p P ih =>
    intro i rest vals raw
    rw [List.cons_append, processSources_cons, processSources_cons]
    cases h : processSourceAux n i p 0 fields vals raw with
    | error e => rfl
    | ok q =>
      show processSources n (i + 1) (P ++ rest) fields q.1 q.2 = _
      rw [ih]
      have harith : i + 1 + P.length = i + (p :: P).length := by
        rw [List.length_cons]; omega
      rw [harith]
      rfl

/-- Unfold parse on a single-field record once the source list is known to be
non-empty and the pinned-source validation passes. -/
theorem parse_unfold (f : fieldInfo) (v0 : String) (S : List SourceM)
    (hS : S ≠ []) (hchk : checkSourcesFound [f] S = .ok ()) :
    parse [f] [v0] S = processSources S.length 0 S [f] [applyDefault f v0] [] := by
  have hne : S.isEmpty = false := by
    cases S with
    | nil => exact absurd rfl hS
    | cons a l => rfl
  unfold parse
  rw [hne, hchk]
  rfl

/-- The element coercion of a string-typed slice element stores the raw part
verbatim and never fails. -/
theorem coerceElems_str (xs : List String) :
    coerceElems (fun v => processFieldValue false v .str (zeroVal .str)) xs =
      .ok (xs.map GoVal.str) := by
  induction xs with
  | nil => rfl
  | cons v vs ih => rw [coerceElems, ih]; rfl

/-! ## Claims -/

/-- Claim C10: for every configuration record, calling Parse with zero sources
returns the ErrNoSource error before any field extraction or mutation takes
place; the model returns the error with no result state, so no field value is
produced, let alone changed (in parse.go the length check is the first
statement of Parse, before extractFields runs). -/
theorem parse_no_sources (fields : List fieldInfo) (init : List String) :
    parse fields init [] = .error .noSource := rfl

/-- Claim C1: for a record bound via Parse with an ordered source list, a
field that does not pin a source ends up with the value of the LAST source in
the list that supplies its key (any earlier suppliers are overwritten, any
later misses fall through or are skipped because the field is non-zero); a
field that pins a source by id takes its value from the source with that id
and from no other — the sources with different ids are arbitrary and never
consulted for it. -/
theorem precedence_last_source_wins :
    (∀ (f : fieldInfo) (v0 : String) (P Q : List SourceM) (s : SourceM) (v : String),
      f.options.source = "" → f.options.refresh = 0 →
      s.fetch (s.paramName f.nameParts) = some v → v ≠ "" →
      (∀ q ∈ Q, q.fetch (q.paramName f.nameParts) = none) →
      parse [f] [v0] (P ++ s :: Q) = .ok ([v], [])) ∧
    (∀ (f : fieldInfo) (v0 : String) (P Q : List SourceM) (g : SourceM) (v : String),
      f.options.source = g.id → g.id ≠ "" → f.options.refresh = 0 →
      (∀ p ∈ P, p.id ≠ g.id) → (∀ q ∈ Q, q.id ≠ g.id) →
      g.fetch (g.paramName f.nameParts) = some v →
      parse [f] [v0] (P ++ g :: Q) = .ok ([v], [])) := by
  constructor
  · intro f v0 P Q s v hf hr hfetch hv hQ
    rw [parse_unfold f v0 _ (by simp) (checkSourcesFound_unpinned f hf _),
      processSources_append]
    obtain ⟨w, hw⟩ := processSources_unpinned_noErr ((P ++ s :: Q).length) f hf hr P 0
      (applyDefault f v0) [] (by rw [List.length_append, List.length_cons]; omega)
    rw [hw]
    show processSources (P ++ s :: Q).length (0 + P.length) (s :: Q) [f] [w] [] = _
    rw [processSources_cons, processSourceAux_single]
    have hstep : stepField (P ++ s :: Q).length (0 + P.length) s 0 f w [] =
        .ok (v, []) := by
      simp [stepField, hf, hfetch, hr]
    rw [hstep]
    show processSources (P ++ s :: Q).length (0 + P.length + 1) Q [f] [v] [] = _
    exact processSources_missAll _ f hf v (Or.inl hv) Q _ [] hQ
  · intro f v0 P Q g v hf hgid hr hP hQ hfetch
    have hfne : f.options.source ≠ "" := by rw [hf]; exact hgid
    rw [parse_unfold f v0 _ (by simp)
        (checkSourcesFound_present f _ ⟨g, by simp, hf.symm⟩),
      processSources_append,
      processSources_skipOtherIds _ f hfne P 0 (applyDefault f v0) []
        (fun p hp => by rw [hf]; exact hP p hp)]
    show processSources (P ++ g :: Q).length (0 + P.length) (g :: Q) [f]
      [applyDefault f v0] [] = _
    rw [processSources_cons, processSourceAux_single]
    have hstep : stepField (P ++ g :: Q).length (0 + P.length) g 0 f
        (applyDefault f v0) [] = .ok (v, []) := by
      simp [stepField, hf, hfetch, hr]
    rw [hstep]
    show processSources (P ++ g :: Q).length (0 + P.length + 1) Q [f] [v] [] = _
    exact processSources_skipOtherIds _ f hfne Q _ v []
      (fun q hq => by rw [hf]; exact hQ q hq)

/-- Claim C1 witness: the spec scenario — sources A (x=1) then B (x=2), no
pinned source, binds 2; pinning the field to A binds 1. -/
theorem precedence_last_source_wins_witness :
    (parse [{ nameParts := ["x"], options := {} }] [""]
      [mkSource "A" "/a/" [("/a/x", "1")], mkSource "B" "/b/" [("/b/x", "2")]] =
      .ok (["2"], [])) ∧
    (parse [{ nameParts := ["x"], options := { source := "A" } }] [""]
      [mkSource "A" "/a/" [("/a/x", "1")], mkSource "B" "/b/" [("/b/x", "2")]] =
      .ok (["1"], [])) := by
  constructor
  · exact precedence_last_source_wins.1 { nameParts := ["x"], options := {} } ""
      [mkSource "A" "/a/" [("/a/x", "1")]] [] (mkSource "B" "/b/" [("/b/x", "2")]) "2"
      rfl rfl rfl (by decide) (by intro q hq; exact absurd hq (List.not_mem_nil q))
  · exact precedence_last_source_wins.2 { nameParts := ["x"], options := { source := "A" } }
      "" [] [mkSource "B" "/b/" [("/b/x", "2")]] (mkSource "A" "/a/" [("/a/x", "1")]) "1"
      rfl (by decide) rfl (by intro p hp; exact absurd hp (List.not_mem_nil p))
      (by intro q hq; rw [List.mem_singleton] at hq; subst hq; decide) rfl

/-- Claim C2: a field pinned to source g that is required (not optional, no
default, zero initial value) fails with ParameterNotFound attributed to g
when g misses its key, whatever the other sources hold — pinned fields never
fall through; an unpinned required field missing from every source of a
multi-source list fails with ParameterNotFound attributed to `(any)` (and the
key as formatted by the last source). -/
theorem notfound_names_pinned_or_any :
    (∀ (f : fieldInfo) (P Q : List SourceM) (g : SourceM),
      f.options.source = g.id → g.id ≠ "" →
      f.options.defaultValue = "" → f.options.optional = false →
      (∀ p ∈ P, p.id ≠ g.id) →
      g.fetch (g.paramName f.nameParts) = none →
      parse [f] [""] (P ++ g :: Q) =
        .error (.parameterNotFound g.id (g.paramName f.nameParts))) ∧
    (∀ (f : fieldInfo) (P : List SourceM) (t : SourceM),
      f.options.source = "" → f.options.defaultValue = "" →
      f.options.optional = false →
      (∀ s ∈ P ++ [t], s.fetch (s.paramName f.nameParts) = none) →
      1 ≤ P.length →
      parse [f] [""] (P ++ [t]) =
        .error (.parameterNotFound "(any)" (t.paramName f.nameParts))) := by
  constructor
  · intro f P Q g hf hgid hd hopt hP hfetch
    have hfne : f.options.source ≠ "" := by rw [hf]; exact hgid
    have hdef : applyDefault f "" = "" := by simp [applyDefault, hd]
    rw [parse_unfold f "" _ (by simp)
        (checkSourcesFound_present f _ ⟨g, by simp, hf.symm⟩),
      hdef, processSources_append,
      processSources_skipOtherIds _ f hfne P 0 "" []
        (fun p hp => by rw [hf]; exact hP p hp)]
    show processSources (P ++ g :: Q).length (0 + P.length) (g :: Q) [f] [""] [] = _
    rw [processSources_cons, processSourceAux_single]
    have hstep : stepField (P ++ g :: Q).length (0 + P.length) g 0 f "" [] =
        .error (.parameterNotFound g.id (g.paramName f.nameParts)) := by
      simp [stepField, hf, hgid, hfetch, hopt]
    rw [hstep]
    rfl
  · intro f P t hf hd hopt hmiss hlen
    have hn : (P ++ [t]).length = P.length + 1 := by simp
    have hdef : applyDefault f "" = "" := by simp [applyDefault, hd]
    rw [parse_unfold f "" _ (by simp) (checkSourcesFound_unpinned f hf _), hdef,
      processSources_append,
      processSources_prefixMiss _ f hf P 0 "" []
        (fun p hp => hmiss p (List.mem_append_left _ hp)) (by rw [hn]; omega)]
    show processSources (P ++ [t]).length (0 + P.length) [t] [f] [""] [] = _
    rw [processSources_cons, processSourceAux_single]
    have hstep : stepField (P ++ [t]).length (0 + P.length) t 0 f "" [] =
        .error (.parameterNotFound "(any)" (t.paramName f.nameParts)) := by
      have hmt : t.fetch (t.paramName f.nameParts) = none := hmiss t (by simp)
      have h1 : ¬ (0 + P.length < (P ++ [t]).length - 1) := by rw [hn]; omega
      have h2 : (P ++ [t]).length > 1 := by rw [hn]; omega
      simp only [stepField, hf, hmt]
      simp [h1, h2, hopt]
      intro hPnil
      subst hPnil
      simp at hlen
    rw [hstep]
    rfl

/-- Claim C2 witness: the spec scenario — sources g then r, field pinned to g
with g empty while r holds the value, fails naming g; and an unpinned
required field missing from both of two sources fails naming `(any)`. -/
theorem notfound_names_pinned_or_any_witness :
    (parse [{ nameParts := ["x"], options := { source := "g" } }] [""]
      [mkSource "g" "/g/" [], mkSource "r" "/r/" [("/r/x", "2")]] =
      .error (.parameterNotFound "g" "/g/x")) ∧
    (parse [{ nameParts := ["x"], options := {} }] [""]
      [mkSource "s1" "/1/" [], mkSource "s2" "/2/" []] =
      .error (.parameterNotFound "(any)" "/2/x")) := by
  constructor
  · exact notfound_names_pinned_or_any.1
      { nameParts := ["x"], options := { source := "g" } } []
      [mkSource "r" "/r/" [("/r/x", "2")]] (mkSource "g" "/g/" [])
      rfl (by decide) rfl rfl (by intro p hp; exact absurd hp (List.not_mem_nil p)) rfl
  · exact notfound_names_pinned_or_any.2 { nameParts := ["x"], options := {} }
      [mkSource "s1" "/1/" []] (mkSource "s2" "/2/" []) rfl rfl rfl
      (by intro s hs
          rw [List.mem_append, List.mem_singleton, List.mem_singleton] at hs
          rcases hs with h | h <;> subst h <;> rfl)
      (by decide)

/-- Claim C3: defaults are applied before any source is consulted, for
exactly the fields declaring a non-empty default, and never override a
non-zero initial value: (a) a zero-valued field with a non-empty default that
no source supplies keeps the default even though it is required; (b) a field
with a non-zero initial value keeps it — the default is skipped; (c) a field
whose declared default is empty has no default applied (it stays zero, made
observable through optional); (d) a source value supplied later overwrites
the already-applied default, so defaults run before the source pass. -/
theorem defaults_before_sources :
    (∀ (f : fieldInfo) (S : List SourceM),
      f.options.source = "" → f.options.defaultValue ≠ "" → S ≠ [] →
      (∀ s ∈ S, s.fetch (s.paramName f.nameParts) = none) →
      parse [f] [""] S = .ok ([f.options.defaultValue], [])) ∧
    (∀ (f : fieldInfo) (v0 : String) (S : List SourceM),
      f.options.source = "" → v0 ≠ "" → S ≠ [] →
      (∀ s ∈ S, s.fetch (s.paramName f.nameParts) = none) →
      parse [f] [v0] S = .ok ([v0], [])) ∧
    (∀ (f : fieldInfo) (S : List SourceM),
      f.options.source = "" → f.options.defaultValue = "" →
      f.options.optional = true → S ≠ [] →
      (∀ s ∈ S, s.fetch (s.paramName f.nameParts) = none) →
      parse [f] [""] S = .ok ([""], [])) ∧
    (∀ (f : fieldInfo) (s : SourceM) (v : String),
      f.options.source = "" → f.options.refresh = 0 →
      f.options.defaultValue ≠ "" →
      s.fetch (s.paramName f.nameParts) = some v →
      parse [f] [""] [s] = .ok ([v], [])) := by
  refine ⟨?_, ?_, ?_, ?_⟩
  · intro f S hf hd hS hmiss
    have hdef : applyDefault f "" = f.options.defaultValue := by
      simp [applyDefault, hd]
    rw [parse_unfold f "" S hS (checkSourcesFound_unpinned f hf _), hdef]
    exact processSources_missAll _ f hf _ (Or.inl hd) S 0 [] hmiss
  · intro f v0 S hf hv0 hS hmiss
    rw [parse_unfold f v0 S hS (checkSourcesFound_unpinned f hf _),
      applyDefault_nonzero f v0 hv0]
    exact processSources_missAll _ f hf v0 (Or.inl hv0) S 0 [] hmiss
  · intro f S hf hd hopt hS hmiss
    have hdef : applyDefault f "" = "" := by simp [applyDefault, hd]
    rw [parse_unfold f "" S hS (checkSourcesFound_unpinned f hf _), hdef]
    exact processSources_missAll _ f hf "" (Or.inr hopt) S 0 [] hmiss
  · intro f s v hf hr hd hfetch
    rw [parse_unfold f "" [s] (by simp) (checkSourcesFound_unpinned f hf _)]
    rw [processSources_cons, processSourceAux_single]
    have hstep : stepField [s].length 0 s 0 f (applyDefault f "") [] =
        .ok (v, []) := by
      simp [stepField, hf, hfetch, hr]
    rw [hstep]
    rfl

/-- Claim C3 witness: a field defaulting to 5 with no matching source value
stays 5; initialised to a non-zero value it keeps that value; an empty
default is not applied; and a supplied source value 7 overwrites the
default 5. -/
theorem defaults_before_sources_witness :
    (parse [{ nameParts := ["x"], options := { defaultValue := "5" } }] [""]
      [mkSource "m" "/p/" []] = .ok (["5"], [])) ∧
    (parse [{ nameParts := ["x"], options := { defaultValue := "5" } }] ["9"]
      [mkSource "m" "/p/" []] = .ok (["9"], [])) ∧
    (parse [{ nameParts := ["x"], options := { optional := true } }] [""]
      [mkSource "m" "/p/" []] = .ok ([""], [])) ∧
    (parse [{ nameParts := ["x"], options := { defaultValue := "5" } }] [""]
      [mkSource "m" "/p/" [("/p/x", "7")]] = .ok (["7"], [])) := by
  refine ⟨?_, ?_, ?_, ?_⟩
  · exact defaults_before_sources.1 { nameParts := ["x"], options := { defaultValue := "5" } }
      [mkSource "m" "/p/" []] rfl (by decide) (List.cons_ne_nil _ _)
      (by intro s hs; rw [List.mem_singleton] at hs; subst hs; rfl)
  · exact defaults_before_sources.2.1 { nameParts := ["x"], options := { defaultValue := "5" } }
      "9" [mkSource "m" "/p/" []] rfl (by decide) (List.cons_ne_nil _ _)
      (by intro s hs; rw [List.mem_singleton] at hs; subst hs; rfl)
  · exact defaults_before_sources.2.2.1 { nameParts := ["x"], options := { optional := true } }
      [mkSource "m" "/p/" []] rfl rfl rfl (List.cons_ne_nil _ _)
      (by intro s hs; rw [List.mem_singleton] at hs; subst hs; rfl)
  · exact defaults_before_sources.2.2.2 { nameParts := ["x"], options := { defaultValue := "5" } }
      (mkSource "m" "/p/" [("/p/x", "7")]) "7" rfl rfl (by decide) rfl

/-- Claim C5: when a field declaring a refresh interval takes its value from
a source whose Refreshable() reports false, the bind call itself fails with
SourceNotRefreshable at registration time — `updater.add` rejects the source
inside the initial per-source pass of Parse, so Parse returns the error and
no refresher is ever produced for the record. -/
theorem refresh_requires_refreshable_source :
    ∀ (f : fieldInfo) (v0 : String) (P Q : List SourceM) (s : SourceM) (v : String),
      f.options.source = "" → f.options.refresh ≠ 0 →
      (∀ p ∈ P, p.fetch (p.paramName f.nameParts) = none) →
      s.fetch (s.paramName f.nameParts) = some v →
      s.refreshable = false →
      parse [f] [v0] (P ++ s :: Q) = .error (.sourceNotRefreshable s.id) := by
  intro f v0 P Q s v hf hr hP hfetch href
  rw [parse_unfold f v0 _ (by simp) (checkSourcesFound_unpinned f hf _),
    processSources_append,
    processSources_prefixMiss _ f hf P 0 (applyDefault f v0) [] hP
      (by rw [List.length_append, List.length_cons]; omega)]
  show processSources (P ++ s :: Q).length (0 + P.length) (s :: Q) [f]
    [applyDefault f v0] [] = _
  rw [processSources_cons, processSourceAux_single]
  have hstep : stepField (P ++ s :: Q).length (0 + P.length) s 0 f
      (applyDefault f v0) [] = .error (.sourceNotRefreshable s.id) := by
    simp [stepField, hf, hfetch, hr, updAdd, href, Except.map]
  rw [hstep]
  rfl

/-- Claim C5 witness: a field with refresh one second bound from a
non-refreshable source makes Parse itself fail with SourceNotRefreshable
naming that source. -/
theorem refresh_requires_refreshable_source_witness :
    parse [{ nameParts := ["x"], options := { refresh := 1000000000 } }] [""]
      [mkSource "g" "/g/" [("/g/x", "v")] false] =
      .error (.sourceNotRefreshable "g") :=
  refresh_requires_refreshable_source
    { nameParts := ["x"], options := { refresh := 1000000000 } } "" [] []
    (mkSource "g" "/g/" [("/g/x", "v")] false) "v" rfl (by decide)
    (by intro p hp; exact absurd hp (List.not_mem_nil p)) rfl rfl

/-- Claim C7 counterexample: parseTag of the empty annotation string under a
parent pinned to source g returns the zero-valued options, whose source is
empty rather than the parent's g — the early return for the empty tag runs
before `f.inherit(parentOptions)`, so the empty annotation does NOT inherit
the parent's source. -/
theorem parseTag_empty_no_inherit_counterexample :
    parseTag "" { source := "g" } = .ok ("", ({} : fieldOptions)) ∧
    ({} : fieldOptions).source ≠ "g" := ⟨rfl, by decide⟩

/-- Claim C7 as amended: for every parent options value, parsing the empty
annotation string returns an empty key and fully default field options
WITHOUT inheriting the parent's source; the source propagation applies only
to non-empty annotation strings (illustrated by the one-segment tag "key",
whose options carry exactly the parent's source). -/
theorem parseTag_empty_tag (parent : fieldOptions) :
    parseTag "" parent = .ok ("", ({} : fieldOptions)) ∧
    parseTag "key" parent = .ok ("key", { source := parent.source }) :=
  ⟨rfl, rfl⟩

/-- Claim C6 counterexample: a mapping entry holding a second `:` is not
split at the first `:` with the rest kept in the value part — the code splits
on every `:`, sees three parts, and fails with the invalid-map-item error
instead of producing the binding a ↦ b:c. -/
theorem map_entry_second_colon_fails :
    processFieldValue false "a:b:c" (.kvmap .str .str) (.kvmap []) =
      .error (.invalidMapItem "a:b:c") ∧
    processFieldValue false "a:b:c" (.kvmap .str .str) (.kvmap []) ≠
      .ok (.kvmap [(.str "a", .str "b:c")]) :=
  ⟨rfl, fun h => Except.noConfusion h⟩

/-- Claim C6 as amended: mapping coercion splits the raw string on `;` into
entries and splits each entry on `:`, requiring exactly two parts — a key
part and a value part, each recursively coerced; an entry whose split does
not have exactly two parts (no `:`, or more than one `:`) fails with the
invalid-map-item error; and the empty raw string yields an empty mapping. -/
theorem map_coercion_two_part_entries :
    (∀ kk vk cur, processFieldValue false "" (.kvmap kk vk) cur = .ok (.kvmap [])) ∧
    (∀ cur, processFieldValue false "a:1;b:2" (.kvmap .str .str) cur =
      .ok (.kvmap [(.str "a", .str "1"), (.str "b", .str "2")])) ∧
    (∀ cur, processFieldValue false "ab" (.kvmap .str .str) cur =
      .error (.invalidMapItem "ab")) ∧
    (∀ cur, processFieldValue false "a:b:c" (.kvmap .str .str) cur =
      .error (.invalidMapItem "a:b:c")) ∧
    (∀ fk fv pair rest, (goSplit ':' pair).length ≠ 2 →
      coerceEntries fk fv (pair :: rest) = .error (.invalidMapItem pair)) := by
  refine ⟨fun kk vk cur => rfl, fun cur => rfl, fun cur => rfl, fun cur => rfl,
    fun fk fv pair rest hlen => ?_⟩
  match hsplit : goSplit ':' pair with
  | [] => rw [coerceEntries, hsplit]
  | [a] => rw [coerceEntries, hsplit]
  | [a, b] => rw [hsplit] at hlen; simp at hlen
  | a :: b :: c :: l => rw [coerceEntries, hsplit]

/-- Claim C6 amended witness: the two-or-fail entry rule applied at the
concrete entry a:b:c with the string coercion on both sides. -/
theorem map_coercion_two_part_entries_witness :
    (goSplit ':' "a:b:c").length ≠ 2 ∧
    coerceEntries (fun v => .ok (.str v)) (fun v => .ok (.str v)) ["a:b:c"] =
      .error (.invalidMapItem "a:b:c") :=
  ⟨by decide, map_coercion_two_part_entries.2.2.2.2 _ _ "a:b:c" [] (by decide)⟩

/-- Claim C8: sequence coercion splits the raw value on `;` and builds the
slice in order with one stored element per split part (for string-typed
elements each part is stored verbatim); in particular the empty raw string
splits into the one-element list holding the empty string, so the result is
a one-element sequence containing the empty string, not an empty sequence. -/
theorem slice_coercion_splits_in_order :
    (∀ value cur, processFieldValue false value (.slice .str) cur =
      .ok (.slice ((goSplit ';' value).map GoVal.str))) ∧
    goSplit ';' "" = [""] ∧
    (∀ cur, processFieldValue false "" (.slice .str) cur =
      .ok (.slice [.str ""])) := by
  refine ⟨fun value cur => ?_, by decide, fun cur => rfl⟩
  show (coerceElems (fun v => processFieldValue false v .str (zeroVal .str))
    (goSplit ';' value)).map GoVal.slice = _
  rw [coerceElems_str]
  rfl

/-- Claim C9: the specification (and the doc comment of jitterticker.go) says
the periodic timer driving each distinct refresh interval carries a random
jitter of at most one tenth of the interval. The jitter bound does hold of
`jitterTickerClock.NewTicker` (its period lies in [d, d + d/10)), but
`updater.Refresh` initialises its clock with the plain `cfclock.NewClock()`,
so the timer it actually starts has period exactly d with no jitter at all:
`newJitterTickerClock` is dead code, never called anywhere in the
repository. -/
theorem updater_ticker_carries_no_jitter (d now : Nat) (hd : 10 ≤ d) :
    updaterRefreshTickerPeriod d = d ∧
    d ≤ jitterTickerPeriod now d ∧
    jitterTickerPeriod now d < d + d / 10 ∧
    jitterTickerPeriod 1 (10 * d) ≠ updaterRefreshTickerPeriod (10 * d) := by
  have hdiv : 0 < d / 10 := Nat.div_pos hd (by norm_num)
  have hmod := Nat.mod_lt now hdiv
  have h10 : (10 * d) / 10 = d := by omega
  have h1 : 1 % d = 1 := Nat.mod_eq_of_lt (by omega)
  refine ⟨rfl, ?_, ?_, ?_⟩
  · simp only [jitterTickerPeriod]; omega
  · simp only [jitterTickerPeriod]; omega
  · simp only [jitterTickerPeriod, updaterRefreshTickerPeriod, h10, h1]; omega

/-- Claim C4: on a refresh tick of a group, a fetched value whose CRC32
fingerprint equals the stored one is skipped entirely — the field keeps its
value and fingerprint and its pass performs no event at all (no lock, no
mutation, no notification); a fetched value whose fingerprint differs is
written to the field between the lock acquisition and release, the
fingerprint is updated, and exactly one notification carrying the field's
declared id is emitted. -/
theorem refresh_change_detection (src : SourceM) (rf : List RField) (i : Nat)
    (hi : i < rf.length) (val : String)
    (hfetch : src.fetch rf[i].key = some val) :
    (crc32 val = rf[i].valueHash →
      (refreshFieldsFromSource src rf)[i]? = some (rf[i], [])) ∧
    (crc32 val ≠ rf[i].valueHash →
      (refreshFieldsFromSource src rf)[i]? =
        some ({ rf[i] with value := val, valueHash := crc32 val },
          [.lockAcquired, .fieldSet val, .lockReleased, .notify rf[i].id])) := by
  constructor
  · intro hcrc
    simp [refreshFieldsFromSource, List.getElem?_map, List.getElem?_eq_getElem hi,
      refreshFieldStep, hfetch, hcrc]
  · intro hcrc
    simp [refreshFieldsFromSource, List.getElem?_map, List.getElem?_eq_getElem hi,
      refreshFieldStep, hfetch, hcrc]

/-- Claim C4 witness: a group holding one field last set to v1 (stored
fingerprint crc32 of v1): a tick returning v1 again produces no event, and a
tick returning v2 performs exactly the locked write and the one notification
carrying the field's id. -/
theorem refresh_change_detection_witness :
    ((0 : Nat) < 1 ∧
      (SourceM.fetch (mkSource "g" "/p/" [("k", "v1")])
        ([⟨"Param1", "k", "v1", crc32 "v1"⟩] : List RField)[0].key = some "v1") ∧
      crc32 "v1" = ([⟨"Param1", "k", "v1", crc32 "v1"⟩] : List RField)[0].valueHash ∧
      (refreshFieldsFromSource (mkSource "g" "/p/" [("k", "v1")])
        [⟨"Param1", "k", "v1", crc32 "v1"⟩])[0]? =
        some (⟨"Param1", "k", "v1", crc32 "v1"⟩, [])) ∧
    ((SourceM.fetch (mkSource "g" "/p/" [("k", "v2")])
        ([⟨"Param1", "k", "v1", crc32 "v1"⟩] : List RField)[0].key = some "v2") ∧
      crc32 "v2" ≠ ([⟨"Param1", "k", "v1", crc32 "v1"⟩] : List RField)[0].valueHash ∧
      (refreshFieldsFromSource (mkSource "g" "/p/" [("k", "v2")])
        [⟨"Param1", "k", "v1", crc32 "v1"⟩])[0]? =
        some (⟨"Param1", "k", "v2", crc32 "v2"⟩,
          [.lockAcquired, .fieldSet "v2", .lockReleased, .notify "Param1"])) := by
  refine ⟨⟨by decide, by decide, by decide, ?_⟩, ⟨by decide, by decide, ?_⟩⟩
  · exact (refresh_change_detection (mkSource "g" "/p/" [("k", "v1")])
      [⟨"Param1", "k", "v1", crc32 "v1"⟩] 0 (by decide) "v1" (by decide)).1 (by decide)
  · exact (refresh_change_detection (mkSource "g" "/p/" [("k", "v2")])
      [⟨"Param1", "k", "v1", crc32 "v1"⟩] 0 (by decide) "v2" (by decide)).2 (by decide)

/-- Claim C9 witness: at the one-second interval and a concrete 2021 wall
clock reading, the jitter bound holds and the updater's own ticker period is
the bare interval. -/
theorem updater_ticker_carries_no_jitter_witness :
    10 ≤ 1000000000 ∧
    updaterRefreshTickerPeriod 1000000000 = 1000000000 ∧
    1000000000 ≤ jitterTickerPeriod 1609459261000000001 1000000000 ∧
    jitterTickerPeriod 1609459261000000001 1000000000 <
      1000000000 + 1000000000 / 10 ∧
    jitterTickerPeriod 1 (10 * 1000000000) ≠
      updaterRefreshTickerPeriod (10 * 1000000000) :=
  ⟨by norm_num,
    (updater_ticker_carries_no_jitter 1000000000 1609459261000000001 (by norm_num)).1,
    (updater_ticker_carries_no_jitter 1000000000 1609459261000000001 (by norm_num)).2.1,
    (updater_ticker_carries_no_jitter 1000000000 1609459261000000001 (by norm_num)).2.2.1,
    (updater_ticker_carries_no_jitter 1000000000 1609459261000000001 (by norm_num)).2.2.2⟩

end Skyconf
